import Mathlib

/-!
Verification of the chiprust-emu CHIP-8 / Super-CHIP core.

This file gives a shallow embedding of the two source files of the
repository (`src/lib.rs` and `src/display.rs`) and proves or refutes the
frozen claims about them.

Modelling conventions:
* 8-bit registers, 16-bit opcodes and the 64-bit `usize` values are plain
  `Nat`s; wrapping arithmetic is written with an explicit `% 2 ^ w`.
* `u128` packed display rows are `Nat`s below `2 ^ 128`; the Rust rotate
  intrinsics are modelled by `rotl128` / `rotr128` which reduce their shift
  amount `% 128`, exactly as `u128::rotate_left / rotate_right` do.
* Rust slice indexing panics out of bounds; every memory or stack access
  that can go out of bounds is modelled in `Option`, `none` being the
  panic.  `std::hint::unreachable_unchecked()` in the top-level opcode
  dispatch is modelled by the dedicated result `StepResult.unreached`.
* The process-wide RNG (`thread_rng().gen::<u8>()`) and the two injected
  key callbacks are passed to `run_opcode` as explicit parameters
  (`rnd`, `keyState`, `keyWait`), making the step function pure.
-/

/-- Bit-expansion used for low-resolution pixel doubling, from
`display.rs`:
`for i in 0..8 { result |= (n as u16 & (1 << i)) << i }` followed by
`result | (result << 1)`. -/
def expand (n : Nat) : Nat :=
  let result := (List.range 8).foldl (fun result i => result ||| ((n &&& (1 <<< i)) <<< i)) 0
  result ||| (result <<< 1)

/-- `u128::rotate_left`: the shift amount is reduced `% 128` (a `u32`
argument that wrapped stays congruent mod 128 because `128 ∣ 2 ^ 32`). -/
def rotl128 (v k : Nat) : Nat :=
  ((v <<< (k % 128)) ||| (v >>> (128 - k % 128))) % 2 ^ 128

/-- `u128::rotate_right`, same conventions as `rotl128`. -/
def rotr128 (v k : Nat) : Nat :=
  ((v >>> (k % 128)) ||| (v <<< (128 - k % 128))) % 2 ^ 128

/-- The display of `display.rs`: 64 packed `u128` rows, a resolution flag
and a dirty flag. -/
structure Display where
  d : List Nat
  hi_res : Bool
  dirty : Bool
deriving DecidableEq

/-- `Display::new()`. -/
def Display.new : Display :=
  { d := List.replicate 64 0, hi_res := false, dirty := false }

/-- `Display::hi_res_mode()`. -/
def Display.hi_res_mode (disp : Display) : Display :=
  { disp with hi_res := true }

/-- `Display::low_res_mode()`. -/
def Display.low_res_mode (disp : Display) : Display :=
  { disp with hi_res := false }

/-- `<[T]>::rotate_right(k)` for `k ≤ len`: the last `k` elements move to
the front, i.e. a left rotation by `len - k`. -/
def rotateRightSlice (l : List Nat) (k : Nat) : List Nat :=
  l.rotate (l.length - k)

/-- `Display::scroll_down(n)`: `self.d.rotate_right(n); self.d[0] = 0;
self.d[1] = 0`. -/
def Display.scroll_down (disp : Display) (n : Nat) : Display :=
  { disp with d := ((rotateRightSlice disp.d n).set 0 0).set 1 0 }

/-- `Display::scroll_side(n)`: rotate every row right (`n > 0`) or left
(`n < 0`); `n = 0` hits `unreachable_unchecked`, modelled as `none`. -/
def Display.scroll_side (disp : Display) (n : Int) : Option Display :=
  if 0 < n then some { disp with d := disp.d.map (fun row => rotr128 row n.toNat) }
  else if n < 0 then some { disp with d := disp.d.map (fun row => rotl128 row n.natAbs) }
  else none

/-- `Display::clear()`: `self.d = Box::new([0; 64])`.  Note the dirty flag
is not touched by the source. -/
def Display.clear (disp : Display) : Display :=
  { disp with d := List.replicate 64 0 }

/-- `Display::write(b, x, y)`, returning the `erased` flag and the new
display.  In low-resolution mode `x`, `y` are doubled and `b` is
bit-expanded; the pattern is positioned by `b.rotate_left(112 - x)`
(the `u32` subtraction may wrap, which mod 128 equals `(240 - x) % 128`
for `x < 128`), XORed into row `y % 64` and, in low-resolution mode, also
into row `y + 1`. -/
def Display.write (disp : Display) (b x y : Nat) : Bool × Display :=
  let b1 := if !disp.hi_res then expand b else b
  let x1 := if !disp.hi_res then x * 2 else x
  let y1 := if !disp.hi_res then y * 2 else y
  let x2 := x1 % 128
  let y2 := y1 % 64
  let p := rotl128 b1 ((240 - x2) % 128)
  let row0 := disp.d.getD y2 0
  let e1 : Bool := p &&& row0 != 0
  let d1 := disp.d.set y2 (row0 ^^^ p)
  if !disp.hi_res then
    let row1 := d1.getD (y2 + 1) 0
    let e2 : Bool := p &&& row1 != 0
    (e1 || e2, { disp with d := d1.set (y2 + 1) (row1 ^^^ p), dirty := true })
  else
    (e1, { disp with d := d1, dirty := true })

/-- `Display::read()`: returns the buffer and clears the dirty flag. -/
def Display.read (disp : Display) : List Nat × Display :=
  (disp.d, { disp with dirty := false })

/-- The machine state of `lib.rs` (`Chip8` without the injected
callbacks, which are passed to the step function instead). -/
structure Chip8 where
  mem : List Nat
  regs : List Nat
  stack : List Nat
  pc : Nat
  i : Nat
  sp : Nat
  sound_timer : Nat
  delay_timer : Nat
  display : Display
deriving DecidableEq

/-- Outcome of one `run_opcode` step: `Ok(())` with the new state, an
`Err(msg)` with the (unchanged) state, or the `unreachable_unchecked`
marker of the top-level dispatch. -/
inductive StepResult where
  | ok (c : Chip8)
  | err (msg : String) (c : Chip8)
  | unreached
deriving DecidableEq

/-- `get_opcode`: big-endian 16-bit fetch
`(mem[addr] as u16) << 8 | mem[addr + 1] as u16`; `none` models the
out-of-bounds panic. -/
def get_opcode (mem : List Nat) (addr : Nat) : Option Nat := do
  let b1 ← mem.get? addr
  let b2 ← mem.get? (addr + 1)
  some ((b1 <<< 8) ||| b2)

/-- `Chip8::stack_push`: `self.sp += 1; self.stack[self.sp] = v`; the
write is out of bounds (panic, `none`) when the incremented pointer
reaches the slot count. -/
def Chip8.stack_push (c : Chip8) (v : Nat) : Option Chip8 :=
  if c.sp + 1 < c.stack.length then
    some { c with sp := c.sp + 1, stack := c.stack.set (c.sp + 1) v }
  else none

/-- `Chip8::stack_pop`: `self.sp -= 1; self.stack[self.sp + 1]`.  With
`sp = 0` the `usize` decrement underflows (a panic in debug builds),
modelled as `none`; the read of the just-popped slot is also bounds
checked. -/
def Chip8.stack_pop (c : Chip8) : Option (Nat × Chip8) :=
  if c.sp = 0 then none
  else if c.sp < c.stack.length then
    some (c.stack.getD c.sp 0, { c with sp := c.sp - 1 })
  else none

/-- Bounds-checked byte store `self.mem[a] = v`. -/
def memWrite (mem : List Nat) (a v : Nat) : Option (List Nat) :=
  if a < mem.length then some (mem.set a v) else none

/-- The `0xFx55` loop: `for j in 0..=x { self.mem[self.i + j] = self.regs[j] }`,
iterated over the list of offsets `j`. -/
def storeRegs (mem regs : List Nat) (ival : Nat) : List Nat → Option (List Nat)
  | [] => some mem
  | j :: rest => do
      let m ← memWrite mem (ival + j) (regs.getD j 0)
      storeRegs m regs ival rest

/-- The `0xFx65` loop: `for j in 0..=x { self.regs[j] = self.mem[self.i + j] }`. -/
def loadRegs (regs mem : List Nat) (ival : Nat) : List Nat → Option (List Nat)
  | [] => some regs
  | j :: rest => do
      let b ← mem.get? (ival + j)
      loadRegs (regs.set j b) mem ival rest

/-- The 8-wide sprite loop of the `0xDxyn` arm:
`erased |= self.display.write(self.mem[self.i + j], vx, vy + j)`. -/
def drawSprite (mem : List Nat) (ival vx vy : Nat) : List Nat → Display → Option (Bool × Display)
  | [], disp => some (false, disp)
  | j :: rest, disp => do
      let b ← mem.get? (ival + j)
      let (e1, d1) := disp.write b vx (vy + j)
      let (e2, d2) ← drawSprite mem ival vx vy rest d1
      some ((e1 || e2 : Bool), d2)

/-- The 16×16 sprite loop of the `0xDxy0` arm in high-resolution mode:
two byte-wide writes per row, the second at column `vx + 8`. -/
def drawSprite16 (mem : List Nat) (ival vx vy : Nat) : List Nat → Display → Option (Bool × Display)
  | [], disp => some (false, disp)
  | j :: rest, disp => do
      let b1 ← mem.get? (ival + j * 2)
      let (e1, d1) := disp.write b1 vx (vy + j)
      let b2 ← mem.get? (ival + j * 2 + 1)
      let (e2, d2) := d1.write b2 (vx + 8) (vy + j)
      let (e3, d3) ← drawSprite16 mem ival vx vy rest d2
      some ((e1 || e2 || e3 : Bool), d3)

/-- The top-level 4-bit family selector `(opcode & 0xF000) >> 12` of
`Chip8::run_opcode`. -/
def familySelector (opcode : Nat) : Nat :=
  (opcode &&& 0xF000) >>> 12

/-- `Chip8::run_opcode`, one decoded instruction.  Families that redirect
the program counter return directly; all others fall through to the
trailing `pc += 2` (the local function `fin`). -/
def Chip8.run_opcode (c : Chip8) (opcode rnd : Nat) (keyState : Nat → Bool) (keyWait : Nat) :
    Option StepResult :=
  let x := (opcode &&& 0x0F00) >>> 8
  let y := (opcode &&& 0x00F0) >>> 4
  let n := opcode &&& 0x000F
  let kk := opcode &&& 0x00FF
  let nnn := opcode &&& 0x0FFF
  let fin : Chip8 → Option StepResult := fun c' => some (.ok { c' with pc := c'.pc + 2 })
  match familySelector opcode with
  | 0x0 =>
    if 0x00C0 ≤ opcode ∧ opcode ≤ 0x00CF then fin { c with display := c.display.scroll_down n }
    else if opcode = 0x00E0 then fin { c with display := c.display.clear }
    else if opcode = 0x00EE then
      match c.stack_pop with
      | none => none
      | some (addr, c') => fin { c' with pc := addr }
    else if opcode = 0x00FB then
      match c.display.scroll_side 4 with
      | none => none
      | some dsp => fin { c with display := dsp }
    else if opcode = 0x00FC then
      match c.display.scroll_side (-4) with
      | none => none
      | some dsp => fin { c with display := dsp }
    else if opcode = 0x00FD then some (.err "Program exited" c)
    else if opcode = 0x00FE then fin { c with display := c.display.low_res_mode }
    else if opcode = 0x00FF then fin { c with display := c.display.hi_res_mode }
    else fin c
  | 0x1 => some (.ok { c with pc := nnn })
  | 0x2 =>
    match c.stack_push c.pc with
    | none => none
    | some c' => some (.ok { c' with pc := nnn })
  | 0x3 =>
    if c.regs.getD x 0 = kk then some (.ok { c with pc := c.pc + 4 }) else fin c
  | 0x4 =>
    if c.regs.getD x 0 ≠ kk then some (.ok { c with pc := c.pc + 4 }) else fin c
  | 0x5 =>
    if c.regs.getD x 0 = c.regs.getD y 0 then some (.ok { c with pc := c.pc + 4 }) else fin c
  | 0x6 => fin { c with regs := c.regs.set x kk }
  | 0x7 => fin { c with regs := c.regs.set x ((c.regs.getD x 0 + kk) % 256) }
  | 0x8 =>
    match opcode &&& 0x000F with
    | 0x0 => fin { c with regs := c.regs.set x (c.regs.getD y 0) }
    | 0x1 => fin { c with regs := c.regs.set x (c.regs.getD x 0 ||| c.regs.getD y 0) }
    | 0x2 => fin { c with regs := c.regs.set x (c.regs.getD x 0 &&& c.regs.getD y 0) }
    | 0x3 => fin { c with regs := c.regs.set x (c.regs.getD x 0 ^^^ c.regs.getD y 0) }
    | 0x4 =>
      let s := c.regs.getD x 0 + c.regs.getD y 0
      fin { c with regs := (c.regs.set 0xF (if 256 ≤ s then 1 else 0)).set x (s % 256) }
    | 0x5 =>
      let rx := c.regs.getD x 0
      let ry := c.regs.getD y 0
      fin { c with regs := (c.regs.set 0xF (if rx < ry then 0 else 1)).set x ((rx + 256 - ry) % 256) }
    | 0x6 =>
      -- overflowing_shr(1): value Vy >> 1, flag `1 >= 8` i.e. always false
      fin { c with regs := (c.regs.set x (c.regs.getD y 0 / 2)).set 0xF 0 }
    | 0x7 =>
      -- source uses overflowing_add(Vy, Vx) here, storing !carry into VF
      let s := c.regs.getD y 0 + c.regs.getD x 0
      fin { c with regs := (c.regs.set 0xF (if 256 ≤ s then 0 else 1)).set x (s % 256) }
    | 0xE =>
      -- overflowing_shl(1): value Vy << 1 (mod 256), flag `1 >= 8` i.e. always false
      fin { c with regs := (c.regs.set x (c.regs.getD y 0 * 2 % 256)).set 0xF 0 }
    | _ => some (.err "Invalid opcode" c)
  | 0x9 =>
    if c.regs.getD x 0 ≠ c.regs.getD y 0 then some (.ok { c with pc := c.pc + 4 }) else fin c
  | 0xA => fin { c with i := nnn }
  | 0xB => some (.ok { c with pc := nnn + c.regs.getD 0 0 })
  | 0xC => fin { c with regs := c.regs.set x (rnd % 256 &&& kk) }
  | 0xD =>
    if n = 0 ∧ c.display.hi_res then
      match drawSprite16 c.mem c.i (c.regs.getD x 0) (c.regs.getD y 0) (List.range 16) c.display with
      | none => none
      | some (e, dsp) =>
        fin { c with display := dsp, regs := c.regs.set 0xF (if e then 1 else 0) }
    else
      match drawSprite c.mem c.i (c.regs.getD x 0) (c.regs.getD y 0) (List.range n) c.display with
      | none => none
      | some (e, dsp) =>
        fin { c with display := dsp, regs := c.regs.set 0xF (if e then 1 else 0) }
  | 0xE =>
    match opcode &&& 0x00FF with
    | 0x9E =>
      if keyState (c.regs.getD x 0) then some (.ok { c with pc := c.pc + 4 }) else fin c
    | 0xA1 =>
      if !keyState (c.regs.getD x 0) then some (.ok { c with pc := c.pc + 4 }) else fin c
    | _ => some (.err "Invalid opcode" c)
  | 0xF =>
    match opcode &&& 0x00FF with
    | 0x07 => fin { c with regs := c.regs.set x c.delay_timer }
    | 0x0A => fin { c with regs := c.regs.set x (keyWait % 256) }
    | 0x15 => fin { c with delay_timer := c.regs.getD x 0 }
    | 0x18 => fin { c with sound_timer := c.regs.getD x 0 }
    | 0x1E => fin { c with i := (c.i + c.regs.getD x 0) % 2 ^ 64 }
    | 0x29 => fin { c with i := c.regs.getD x 0 * 5 }
    | 0x30 => fin { c with i := c.regs.getD x 0 * 10 + 40 }
    | 0x33 =>
      let vx := c.regs.getD x 0
      match memWrite c.mem c.i (vx / 100) with
      | none => none
      | some m1 =>
        match memWrite m1 (c.i + 1) (vx % 100 / 10) with
        | none => none
        | some m2 =>
          match memWrite m2 (c.i + 2) (vx % 100 % 10) with
          | none => none
          | some m3 => fin { c with mem := m3 }
    | 0x55 =>
      match storeRegs c.mem c.regs c.i (List.range (x + 1)) with
      | none => none
      | some m => fin { c with mem := m }
    | 0x65 =>
      match loadRegs c.regs c.mem c.i (List.range (x + 1)) with
      | none => none
      | some r => fin { c with regs := r }
    | _ => some (.err "Invalid opcode" c)
  | _ => some .unreached

/-- `Chip8::cpu_tick`: fetch the big-endian opcode at `pc` and run it. -/
def Chip8.cpu_tick (c : Chip8) (rnd : Nat) (keyState : Nat → Bool) (keyWait : Nat) :
    Option StepResult :=
  match get_opcode c.mem c.pc with
  | none => none
  | some op => c.run_opcode op rnd keyState keyWait

/-- `Chip8::timers_tick`: decrement both timers, floor 0 (`Nat`
subtraction already saturates at 0, matching the `if t > 0` guard). -/
def Chip8.timers_tick (c : Chip8) : Chip8 :=
  { c with delay_timer := c.delay_timer - 1, sound_timer := c.sound_timer - 1 }

/-- A key-state callback that reports every key up (the default handler
installed by `Chip8::new`). -/
def noKey : Nat → Bool := fun _ => false

/-- The rows touched by `Display::write(b, x, y)`: row `y % 64` in
high-resolution mode, rows `y*2 % 64` and `y*2 % 64 + 1` in
low-resolution mode. -/
def Display.affectedRows (disp : Display) (y : Nat) : List Nat :=
  if disp.hi_res then [y % 64] else [y * 2 % 64, y * 2 % 64 + 1]

/-- Repeated `stack_push`, for the stack-capacity claim. -/
def pushList (c : Chip8) : List Nat → Option Chip8
  | [] => some c
  | v :: rest =>
    match c.stack_push v with
    | none => none
    | some c' => pushList c' rest

/-- A machine with memoryless state, `V1 = 129`, for evaluating the
shift opcodes at a concrete input. -/
def chipShift : Chip8 :=
  { mem := [], regs := (List.replicate 16 0).set 1 129, stack := [], pc := 0x200,
    i := 0, sp := 0, sound_timer := 0, delay_timer := 0, display := Display.new }

/-- A machine with `V0 = 1`, `V1 = 5`, for evaluating opcode `0x8017`. -/
def chipSubn : Chip8 :=
  { mem := [], regs := ((List.replicate 16 0).set 0 1).set 1 5, stack := [], pc := 0x200,
    i := 0, sp := 0, sound_timer := 0, delay_timer := 0, display := Display.new }

/-- A fresh machine whose memory holds `0x2205` at `0x200` and `0x00EE`
at `0x205` (the call/return scenario of the spec). -/
def chipCall : Chip8 :=
  { mem := ((((List.replicate 520 0).set 0x200 0x22).set 0x201 0x05).set 0x205 0x00).set 0x206 0xEE,
    regs := List.replicate 16 0, stack := List.replicate 16 0, pc := 0x200,
    i := 0, sp := 0, sound_timer := 0, delay_timer := 0, display := Display.new }

/-- A fresh machine with an empty 16-slot stack (memory is irrelevant to
the stack claims, so it is left empty). -/
def chipFresh : Chip8 :=
  { mem := [], regs := List.replicate 16 0, stack := List.replicate 16 0,
    pc := 0x200, i := 0, sp := 0, sound_timer := 0, delay_timer := 0, display := Display.new }

/-- `chipFresh` after one push of the value 7. -/
def chipFresh1 : Chip8 :=
  { chipFresh with sp := 1, stack := chipFresh.stack.set 1 7 }

/-- A high-resolution display whose row 0 already equals the positioned
pattern of `write 1 0 0`, i.e. bit 112 set. -/
def dispHit : Display :=
  { d := (List.replicate 64 0).set 0 (2 ^ 112), hi_res := true, dirty := false }

/-- A low-resolution display with 64 pairwise distinct rows. -/
def dispRows : Display :=
  { d := (List.range 64).map (fun r => r + 100), hi_res := false, dirty := false }

/-- A machine with distinct register values and `I = 0x300`, for the
store/load round-trip witness. -/
def chipStore : Chip8 :=
  { mem := List.replicate 4096 0, regs := (List.range 16).map (fun j => j + 10),
    stack := List.replicate 16 0, pc := 0x200, i := 0x300, sp := 0,
    sound_timer := 0, delay_timer := 0, display := Display.new }

/-! ## Helper lemmas -/

/-- Extracting a nibble-aligned field: masking with `(2 ^ m - 1) <<< k`
then shifting right by `k` is division and remainder. -/
theorem and_mask_shift (op k m : Nat) :
    (op &&& ((2 ^ m - 1) <<< k)) >>> k = op / 2 ^ k % 2 ^ m := by
  apply Nat.eq_of_testBit_eq
  intro j
  rw [Nat.testBit_shiftRight, Nat.testBit_and, Nat.testBit_shiftLeft,
    Nat.testBit_two_pow_sub_one]
  rw [show op / 2 ^ k = op >>> k from (Nat.shiftRight_eq_div_pow op k).symm]
  rw [Nat.testBit_mod_two_pow, Nat.testBit_shiftRight]
  simp [Nat.add_sub_cancel_left, Bool.and_comm]

/-- The top-level selector in arithmetic form. -/
theorem familySelector_eq (op : Nat) : familySelector op = op / 4096 % 16 := by
  have h := and_mask_shift op 12 4
  norm_num at h
  simpa [familySelector] using h

/-- The `x` nibble in arithmetic form. -/
theorem opX_eq (op : Nat) : (op &&& 0x0F00) >>> 8 = op / 256 % 16 := by
  have h := and_mask_shift op 8 4
  norm_num at h
  simpa using h

/-- The `y` nibble in arithmetic form. -/
theorem opY_eq (op : Nat) : (op &&& 0x00F0) >>> 4 = op / 16 % 16 := by
  have h := and_mask_shift op 4 4
  norm_num at h
  simpa using h

/-- The low nibble in arithmetic form. -/
theorem opN_eq (op : Nat) : op &&& 0x000F = op % 16 := by
  have h := Nat.and_pow_two_sub_one_eq_mod op 4
  norm_num at h
  simpa using h

/-- The immediate byte in arithmetic form. -/
theorem opKK_eq (op : Nat) : op &&& 0x00FF = op % 256 := by
  have h := Nat.and_pow_two_sub_one_eq_mod op 8
  norm_num at h
  simpa using h

/-- The immediate address in arithmetic form. -/
theorem opNNN_eq (op : Nat) : op &&& 0x0FFF = op % 4096 := by
  have h := Nat.and_pow_two_sub_one_eq_mod op 12
  norm_num at h
  simpa using h

/-- A 128-bit rotation of a nonzero row is nonzero. -/
theorem rotl128_ne_zero (v k : Nat) (hv : v ≠ 0) (hlt : v < 2 ^ 128) :
    rotl128 v k ≠ 0 := by
  obtain ⟨j, hj⟩ := Nat.ne_zero_implies_bit_true hv
  have hjlt : j < 128 := by
    by_contra hge
    push_neg at hge
    have : v.testBit j = false :=
      Nat.testBit_lt_two_pow (lt_of_lt_of_le hlt (Nat.pow_le_pow_right (by norm_num) hge))
    simp [this] at hj
  intro h0
  set k' := k % 128 with hk'
  have hk'lt : k' < 128 := Nat.mod_lt _ (by norm_num)
  have htarget : (rotl128 v k).testBit ((j + k') % 128) = true := by
    rw [rotl128, ← hk']
    rcases Nat.lt_or_ge (j + k') 128 with hcase | hcase
    · rw [Nat.mod_eq_of_lt hcase]
      rw [Nat.testBit_mod_two_pow]
      simp only [hcase, decide_True, Bool.true_and]
      rw [Nat.testBit_or, Nat.testBit_shiftLeft]
      simp [Nat.le_add_left, Nat.add_sub_cancel, hj]
    · have hmod : (j + k') % 128 = j + k' - 128 := by omega
      rw [hmod, Nat.testBit_mod_two_pow]
      have hlt2 : j + k' - 128 < 128 := by omega
      simp only [hlt2, decide_True, Bool.true_and]
      rw [Nat.testBit_or, Nat.testBit_shiftRight]
      have : 128 - k' + (j + k' - 128) = j := by omega
      rw [this, hj]
      simp
  rw [h0] at htarget
  simp at htarget

/-- XOR with the same pattern twice is the identity. -/
theorem xor_xor_cancel (a p : Nat) : a ^^^ p ^^^ p = a := by
  rw [Nat.xor_assoc, Nat.xor_self, Nat.xor_zero]

/-- If a pattern shares no bit with a row, it shares all its bits with
the row after XORing it in. -/
theorem and_xor_of_and_eq_zero {p a : Nat} (h : p &&& a = 0) : p &&& (a ^^^ p) = p := by
  rw [Nat.and_xor_distrib_left, h, Nat.zero_xor, Nat.and_self]

theorem getD_set_self (l : List Nat) (i v : Nat) (h : i < l.length) :
    (l.set i v).getD i 0 = v := by
  simp [List.getD_eq_getElem?_getD, List.getElem?_set_self h]

theorem getD_set_ne (l : List Nat) (i j v : Nat) (h : i ≠ j) :
    (l.set i v).getD j 0 = l.getD j 0 := by
  simp [List.getD_eq_getElem?_getD, List.getElem?_set_ne h]

theorem set_getD_self (l : List Nat) (i : Nat) (h : i < l.length) :
    l.set i (l.getD i 0) = l := by
  apply List.ext_getElem?
  intro j
  rcases eq_or_ne i j with rfl | hne
  · simp [List.getElem?_set_self h, List.getD_eq_getElem?_getD, List.getElem?_eq_getElem h]
  · simp [List.getElem?_set_ne hne]

theorem get?_eq_some_getD (l : List Nat) (i : Nat) (h : i < l.length) :
    l.get? i = some (l.getD i 0) := by
  simp [List.getD_eq_getElem?_getD, List.getElem?_eq_getElem h]

/-- `Display.write` in high-resolution mode, unfolded. -/
theorem write_hi_res (disp : Display) (b x y : Nat) (hh : disp.hi_res = true) :
    disp.write b x y =
      ((rotl128 b ((240 - x % 128) % 128) &&& disp.d.getD (y % 64) 0 != 0 : Bool),
        { disp with
          d := disp.d.set (y % 64) (disp.d.getD (y % 64) 0 ^^^ rotl128 b ((240 - x % 128) % 128)),
          dirty := true }) := by
  rw [Display.write]
  simp [hh]

/-- `Display.write` in low-resolution mode, unfolded. -/
theorem write_low_res (disp : Display) (b x y : Nat) (hh : disp.hi_res = false) :
    disp.write b x y =
      ((rotl128 (expand b) ((240 - x * 2 % 128) % 128) &&& disp.d.getD (y * 2 % 64) 0 != 0 ||
        (rotl128 (expand b) ((240 - x * 2 % 128) % 128) &&&
          (disp.d.set (y * 2 % 64) (disp.d.getD (y * 2 % 64) 0 ^^^
            rotl128 (expand b) ((240 - x * 2 % 128) % 128))).getD (y * 2 % 64 + 1) 0 != 0) : Bool),
        { disp with
          d := (disp.d.set (y * 2 % 64) (disp.d.getD (y * 2 % 64) 0 ^^^
            rotl128 (expand b) ((240 - x * 2 % 128) % 128))).set (y * 2 % 64 + 1)
            ((disp.d.set (y * 2 % 64) (disp.d.getD (y * 2 % 64) 0 ^^^
              rotl128 (expand b) ((240 - x * 2 % 128) % 128))).getD (y * 2 % 64 + 1) 0 ^^^
              rotl128 (expand b) ((240 - x * 2 % 128) % 128)),
          dirty := true }) := by
  rw [Display.write]
  simp [hh]

/-- Setting two slots and then restoring both original values is the
identity. -/
theorem set_set_restore (l : List Nat) (a b i j : Nat)
    (hi : i < l.length) (hj : j < l.length) :
    (((l.set i a).set j b).set i (l.getD i 0)).set j (l.getD j 0) = l := by
  apply List.ext_getElem?
  intro m
  rcases eq_or_ne j m with rfl | hjm
  · rw [List.getElem?_set_self (by simpa using hj)]
    rw [List.getD_eq_getElem?_getD, List.getElem?_eq_getElem hj]
    rfl
  · rw [List.getElem?_set_ne hjm]
    rcases eq_or_ne i m with rfl | him
    · rw [List.getElem?_set_self (by simpa using hi)]
      rw [List.getD_eq_getElem?_getD, List.getElem?_eq_getElem hi]
      rfl
    · rw [List.getElem?_set_ne him, List.getElem?_set_ne hjm, List.getElem?_set_ne him]

set_option maxRecDepth 4096 in
/-- Bit-expanding a nonzero byte gives a nonzero pattern. -/
theorem expand_ne_zero (b : Nat) (hb : b < 256) (h0 : b ≠ 0) : expand b ≠ 0 := by
  have h : ∀ b : Fin 256, (b : Nat) ≠ 0 → expand (b : Nat) ≠ 0 := by decide
  exact h ⟨b, hb⟩ h0

set_option maxRecDepth 4096 in
/-- Bit-expanding a byte fits in a packed row. -/
theorem expand_lt (b : Nat) (hb : b < 256) : expand b < 2 ^ 128 := by
  have h : ∀ b : Fin 256, expand (b : Nat) < 2 ^ 16 := by decide
  exact lt_trans (h ⟨b, hb⟩) (by norm_num)

/-- Pushing a list of values onto a 16-slot stack succeeds while at most
15 slots are consumed, advancing the pointer one slot per push. -/
theorem pushList_spec (vs : List Nat) : ∀ c : Chip8, c.stack.length = 16 →
    c.sp + vs.length ≤ 15 →
    ∃ c', pushList c vs = some c' ∧ c'.sp = c.sp + vs.length ∧ c'.stack.length = 16 := by
  induction vs with
  | nil => intro c hlen hsp; exact ⟨c, rfl, by simp, hlen⟩
  | cons v rest ih =>
    intro c hlen hsp
    have hguard : c.sp + 1 < c.stack.length := by
      rw [hlen]; simp at hsp; omega
    have hpush : c.stack_push v =
        some { c with sp := c.sp + 1, stack := c.stack.set (c.sp + 1) v } := by
      rw [Chip8.stack_push, if_pos hguard]
    obtain ⟨c', h1, h2, h3⟩ :=
      ih { c with sp := c.sp + 1, stack := c.stack.set (c.sp + 1) v }
        (by simp [hlen]) (by simp at hsp ⊢; omega)
    refine ⟨c', ?_, ?_, h3⟩
    · rw [pushList, hpush]
      exact h1
    · simp at h2 ⊢; omega

/-- The register-store loop succeeds when every target byte is in
bounds, writes exactly the selected registers and touches nothing
else. -/
theorem storeRegs_spec (js : List Nat) : ∀ (mem regs : List Nat) (ival : Nat),
    js.Nodup → (∀ j ∈ js, ival + j < mem.length) →
    ∃ mem', storeRegs mem regs ival js = some mem' ∧
      mem'.length = mem.length ∧
      (∀ j ∈ js, mem'.getD (ival + j) 0 = regs.getD j 0) ∧
      (∀ a, (∀ j ∈ js, a ≠ ival + j) → mem'.getD a 0 = mem.getD a 0) := by
  induction js with
  | nil =>
    intro mem regs ival _ _
    exact ⟨mem, rfl, rfl, fun j h => absurd h (List.not_mem_nil j), fun a _ => rfl⟩
  | cons j rest ih =>
    intro mem regs ival hnd hbound
    rw [List.nodup_cons] at hnd
    have hj : ival + j < mem.length := hbound j (by simp)
    have hw : memWrite mem (ival + j) (regs.getD j 0) =
        some (mem.set (ival + j) (regs.getD j 0)) := by
      rw [memWrite, if_pos hj]
    obtain ⟨mem', h1, h2, h3, h4⟩ :=
      ih (mem.set (ival + j) (regs.getD j 0)) regs ival hnd.2
        (by intro j' hj'; rw [List.length_set]; exact hbound j' (by simp [hj']))
    refine ⟨mem', ?_, ?_, ?_, ?_⟩
    · rw [storeRegs, hw]
      exact h1
    · rw [h2, List.length_set]
    · intro j' hj'
      rcases List.mem_cons.1 hj' with rfl | hmem
      · rw [h4 _ (fun j'' hj'' => by
          have : j' ≠ j'' := fun hEq => hnd.1 (hEq ▸ hj'')
          omega)]
        exact getD_set_self _ _ _ hj
      · exact h3 j' hmem
    · intro a ha
      rw [h4 a (fun j'' hj'' => ha j'' (by simp [hj'']))]
      exact getD_set_ne _ _ _ _ (Ne.symm (ha j (by simp)))

/-- The register-load loop reproduces the register file when memory
already holds exactly the register values. -/
theorem loadRegs_id (js : List Nat) : ∀ (regs mem : List Nat) (ival : Nat),
    (∀ j ∈ js, ival + j < mem.length) → (∀ j ∈ js, j < regs.length) →
    (∀ j ∈ js, mem.getD (ival + j) 0 = regs.getD j 0) →
    loadRegs regs mem ival js = some regs := by
  induction js with
  | nil => intro regs mem ival _ _ _; rfl
  | cons j rest ih =>
    intro regs mem ival hmem hreg hval
    have hget : mem.get? (ival + j) = some (regs.getD j 0) := by
      rw [get?_eq_some_getD _ _ (hmem j (by simp)), hval j (by simp)]
    rw [loadRegs, hget]
    show loadRegs (regs.set j (regs.getD j 0)) mem ival rest = some regs
    rw [set_getD_self _ _ (hreg j (by simp))]
    exact ih regs mem ival (fun j' h => hmem j' (by simp [h])) (fun j' h => hreg j' (by simp [h]))
      (fun j' h => hval j' (by simp [h]))

/-! ## Claim theorems -/

/-- C1: evaluation of the shift opcodes at the failing input `V1 = 129`.
The claim says `0x8xy6` stores `Vy >> 1` into `Vx` and the shifted-out
least-significant bit of `Vy` (here 1) into `VF`, and `0x8xyE` stores
`Vy << 1` into `Vx` and the shifted-out most-significant bit (here 1)
into `VF`.  The code computes the shifted values correctly from `Vy` but
stores the `overflowing_shr`/`overflowing_shl` overflow flag into `VF`,
which for a shift amount of 1 is always `false`, so `VF = 0` in both
results below instead of 1. -/
theorem C1_shift_flag_eval :
    chipShift.run_opcode 0x8016 0 noKey 0 =
      some (.ok { chipShift with
        regs := [64, 129, 0, 0, 0, 0, 0, 0, 0, 0, 0, 0, 0, 0, 0, 0], pc := 0x202 }) ∧
    chipShift.run_opcode 0x801E 0 noKey 0 =
      some (.ok { chipShift with
        regs := [2, 129, 0, 0, 0, 0, 0, 0, 0, 0, 0, 0, 0, 0, 0, 0], pc := 0x202 }) := by
  constructor <;> decide

/-- C2: evaluation of opcode `0x8017` at the failing input `V0 = 1`,
`V1 = 5`.  The claim says `Vx := Vy - Vx` (here `5 - 1 = 4`); the code
computes `overflowing_add(Vy, Vx)` instead, so `V0` ends up `6`.
(`VF = 1` here agrees with the claim only because the addition does not
carry.) -/
theorem C2_subn_eval :
    chipSubn.run_opcode 0x8017 0 noKey 0 =
      some (.ok { chipSubn with
        regs := [6, 5, 0, 0, 0, 0, 0, 0, 0, 0, 0, 0, 0, 0, 0, 1], pc := 0x202 }) := by
  decide

/-- C3 counterexample: on a fresh display (dirty flag false), `clear()`
leaves the dirty flag false, contradicting the claim that a `dirty()`
query after `clear()` returns true. -/
theorem C3_clear_dirty_counterexample : Display.new.clear.dirty = false := rfl

/-- C3 (amended): `clear()` zeroes every one of the 64 packed rows and
leaves the dirty flag unchanged (the source's `clear` replaces the row
array but never touches the `dirty` field). -/
theorem C3_clear_zeroes_rows_dirty_unchanged (disp : Display) :
    disp.clear.d = List.replicate 64 0 ∧ disp.clear.dirty = disp.dirty :=
  ⟨rfl, rfl⟩

/-- C4: call/return correctness.  If the machine fetches a call opcode
`0x2NNN` at `pc = A` with at least one free stack slot, and the opcode
fetched at `NNN` is the return `0x00EE`, then two `cpu_tick` steps leave
`pc = A + 2`. -/
theorem C4_call_return (c : Chip8) (A NNN r1 r2 kw : Nat) (ks : Nat → Bool)
    (hpc : c.pc = A)
    (hlen : c.stack.length = 16)
    (hsp : c.sp + 1 < 16)
    (hNNN : NNN < 4096)
    (hf1 : get_opcode c.mem A = some (0x2000 + NNN))
    (hf2 : get_opcode c.mem NNN = some 0x00EE) :
    ∃ c1 c2, c.cpu_tick r1 ks kw = some (.ok c1) ∧ c1.cpu_tick r2 ks kw = some (.ok c2) ∧
      c2.pc = A + 2 := by
  subst hpc
  have hsel1 : familySelector (0x2000 + NNN) = 2 := by
    rw [familySelector_eq]; omega
  have hnnn : (0x2000 + NNN) &&& 0x0FFF = NNN := by
    rw [opNNN_eq]; omega
  have hguard : c.sp + 1 < c.stack.length := by omega
  have hpush : c.stack_push c.pc =
      some { c with sp := c.sp + 1, stack := c.stack.set (c.sp + 1) c.pc } := by
    rw [Chip8.stack_push, if_pos hguard]
  refine ⟨{ c with sp := c.sp + 1, stack := c.stack.set (c.sp + 1) c.pc, pc := NNN },
    { c with sp := c.sp, stack := c.stack.set (c.sp + 1) c.pc, pc := c.pc + 2 }, ?_, ?_, rfl⟩
  · simp only [Chip8.cpu_tick, hf1, Chip8.run_opcode, hsel1, hnnn, hpush]
  · have hpop : Chip8.stack_pop
        { c with sp := c.sp + 1, stack := c.stack.set (c.sp + 1) c.pc, pc := NNN } =
        some (c.pc, { c with sp := c.sp, stack := c.stack.set (c.sp + 1) c.pc, pc := NNN }) := by
      rw [Chip8.stack_pop]
      rw [if_neg (by simp)]
      rw [if_pos (by simpa using hguard)]
      rw [getD_set_self _ _ _ hguard]
      simp
    simp only [Chip8.cpu_tick, hf2, Chip8.run_opcode, hpop]
    norm_num [familySelector]

set_option maxRecDepth 8192 in
/-- C4 witness: the spec's concrete scenario, `0x2205` at `0x200` and
`0x00EE` at `0x205`; after two ticks `pc = 0x202`. -/
theorem C4_call_return_witness :
    ∃ c1 c2, chipCall.cpu_tick 0 noKey 0 = some (.ok c1) ∧
      c1.cpu_tick 0 noKey 0 = some (.ok c2) ∧ c2.pc = 0x200 + 2 :=
  C4_call_return chipCall 0x200 0x205 0 0 0 noKey rfl (by decide) (by decide) (by decide)
    (by decide) (by decide)

/-- C5 counterexample: on a high-resolution display whose row 0 already
holds exactly the positioned sprite pattern (bit 112), writing the
nonzero byte 1 at (0,0) twice restores the display, but the second call
returns `false`, contradicting the claim that the second identical write
always reports erasure for `b ≠ 0`. -/
theorem C5_second_write_counterexample :
    ((dispHit.write 1 0 0).2.write 1 0 0).1 = false := by decide

/-- C5 (amended): collision law for `Display.write`.  For every display
with its 64 rows and every byte `b < 256`: (1) writing onto affected
rows that are all zero reports no erasure; (2) writing the identical
sprite twice restores the whole row buffer; (3) if `b ≠ 0` and the first
call reported no erasure (in particular on an all-zero region), the
second identical call reports erasure. -/
theorem C5_collision_law (disp : Display) (b x y : Nat) (hlen : disp.d.length = 64)
    (hb : b < 256) :
    ((∀ r ∈ disp.affectedRows y, disp.d.getD r 0 = 0) → (disp.write b x y).1 = false) ∧
    ((disp.write b x y).2.write b x y).2.d = disp.d ∧
    (b ≠ 0 → (disp.write b x y).1 = false → ((disp.write b x y).2.write b x y).1 = true) := by
  cases hh : disp.hi_res with
  | true =>
    have hy2 : y % 64 < disp.d.length := by rw [hlen]; exact Nat.mod_lt _ (by norm_num)
    refine ⟨?_, ?_, ?_⟩
    · intro hzero
      have h0 : disp.d.getD (y % 64) 0 = 0 := hzero _ (by simp [Display.affectedRows, hh])
      rw [write_hi_res disp b x y hh]
      dsimp only
      rw [h0]
      simp
    · rw [write_hi_res disp b x y hh]
      dsimp only
      rw [write_hi_res]
      · dsimp only
        rw [getD_set_self _ _ _ hy2, xor_xor_cancel, List.set_set, set_getD_self _ _ hy2]
      · exact hh
    · intro hb0 hfalse
      have hpne : rotl128 b ((240 - x % 128) % 128) ≠ 0 :=
        rotl128_ne_zero _ _ hb0 (lt_trans hb (by norm_num))
      rw [write_hi_res disp b x y hh] at hfalse ⊢
      dsimp only at hfalse ⊢
      have hand : rotl128 b ((240 - x % 128) % 128) &&& disp.d.getD (y % 64) 0 = 0 := by
        simpa using hfalse
      rw [write_hi_res]
      · dsimp only
        rw [getD_set_self _ _ _ hy2, and_xor_of_and_eq_zero hand]
        simpa using hpne
      · exact hh
  | false =>
    have hy2 : y * 2 % 64 < disp.d.length := by rw [hlen]; exact Nat.mod_lt _ (by norm_num)
    have hy21 : y * 2 % 64 + 1 < disp.d.length := by rw [hlen]; omega
    have hne : y * 2 % 64 ≠ y * 2 % 64 + 1 := by omega
    have hne' : y * 2 % 64 + 1 ≠ y * 2 % 64 := by omega
    refine ⟨?_, ?_, ?_⟩
    · intro hzero
      have h0 : disp.d.getD (y * 2 % 64) 0 = 0 := hzero _ (by simp [Display.affectedRows, hh])
      have h1 : disp.d.getD (y * 2 % 64 + 1) 0 = 0 := hzero _ (by simp [Display.affectedRows, hh])
      rw [write_low_res disp b x y hh]
      dsimp only
      rw [getD_set_ne _ _ _ _ hne, h0, h1]
      simp
    · rw [write_low_res disp b x y hh]
      dsimp only
      rw [getD_set_ne _ _ _ _ hne]
      rw [write_low_res]
      · dsimp only
        rw [getD_set_ne _ _ _ _ hne', getD_set_self _ _ _ hy2, xor_xor_cancel]
        rw [getD_set_ne _ _ _ _ hne]
        rw [getD_set_self _ _ _ (by simpa using hy21)]
        rw [xor_xor_cancel]
        exact set_set_restore _ _ _ _ _ hy2 hy21
      · exact hh
    · intro hb0 hfalse
      have hpne : rotl128 (expand b) ((240 - x * 2 % 128) % 128) ≠ 0 :=
        rotl128_ne_zero _ _ (expand_ne_zero b hb hb0) (expand_lt b hb)
      rw [write_low_res disp b x y hh] at hfalse ⊢
      dsimp only at hfalse ⊢
      rw [getD_set_ne _ _ _ _ hne] at hfalse ⊢
      have hand : rotl128 (expand b) ((240 - x * 2 % 128) % 128) &&&
          disp.d.getD (y * 2 % 64) 0 = 0 := by
        simp only [Bool.or_eq_false_iff, bne_eq_false_iff_eq] at hfalse
        exact hfalse.1
      rw [write_low_res]
      · dsimp only
        rw [getD_set_ne _ _ _ _ hne', getD_set_self _ _ _ hy2]
        rw [and_xor_of_and_eq_zero hand]
        simp [hpne]
      · exact hh

/-- C5 witness: byte `0x80` written at (3,5) on a fresh low-resolution
display: no erasure on the first call, buffer restored after the second,
which reports erasure. -/
theorem C5_collision_law_witness :
    ((Display.new.write 128 3 5).1 = false) ∧
    (((Display.new.write 128 3 5).2.write 128 3 5).2.d = Display.new.d) ∧
    (((Display.new.write 128 3 5).2.write 128 3 5).1 = true) := by
  obtain ⟨h1, h2, h3⟩ := C5_collision_law Display.new 128 3 5 (by simp [Display.new]) (by norm_num)
  have hz : ∀ r ∈ Display.new.affectedRows 5, Display.new.d.getD r 0 = 0 := by decide
  exact ⟨h1 hz, h2, h3 (by norm_num) (h1 hz)⟩

/-- C6 counterexample: on a concrete machine executing opcode `0x00FD`,
the result is the error-channel value `Err("Program exited")`, not an
`Ok` outcome, so the halt is not surfaced as normal successful
termination. -/
theorem C6_halt_is_error_channel :
    chipShift.run_opcode 0x00FD 0 noKey 0 = some (.err "Program exited" chipShift) := by
  decide

/-- C6 (amended): opcode `0x00FD` is reported through the error channel
with the dedicated message "Program exited", which differs from the
"Invalid opcode" error of an unrecognized opcode (here `0x800F`), so the
host can distinguish a clean halt from a fatal decode error, though
neither is an `Ok` outcome. -/
theorem C6_halt_distinct_from_decode_error (c : Chip8) (r kw : Nat) (ks : Nat → Bool) :
    c.run_opcode 0x00FD r ks kw = some (.err "Program exited" c) ∧
    c.run_opcode 0x800F r ks kw = some (.err "Invalid opcode" c) ∧
    c.run_opcode 0x00FD r ks kw ≠ c.run_opcode 0x800F r ks kw := by
  refine ⟨by simp [Chip8.run_opcode, familySelector],
    by simp [Chip8.run_opcode, familySelector], ?_⟩
  simp [Chip8.run_opcode, familySelector]

/-- C7: block store/load round-trip.  For every `k ≤ 15` and `I` with
`I + k < 4096`, running opcode `0xFk55` then `0xFk65` succeeds and
reproduces the original register file. -/
theorem C7_store_load_roundtrip (c : Chip8) (k r1 r2 kw : Nat) (ks : Nat → Bool)
    (hk : k ≤ 15)
    (hmemlen : c.mem.length = 4096)
    (hreglen : c.regs.length = 16)
    (hbound : c.i + k < 4096) :
    ∃ c1 c2, c.run_opcode (0xF055 + k * 256) r1 ks kw = some (.ok c1) ∧
      c1.run_opcode (0xF065 + k * 256) r2 ks kw = some (.ok c2) ∧
      c2.regs = c.regs := by
  have hsel1 : familySelector (0xF055 + k * 256) = 15 := by
    rw [familySelector_eq]; omega
  have hsel2 : familySelector (0xF065 + k * 256) = 15 := by
    rw [familySelector_eq]; omega
  have hkk1 : (0xF055 + k * 256) &&& 0x00FF = 0x55 := by
    rw [opKK_eq]; omega
  have hkk2 : (0xF065 + k * 256) &&& 0x00FF = 0x65 := by
    rw [opKK_eq]; omega
  have hx1 : (0xF055 + k * 256 &&& 0x0F00) >>> 8 = k := by
    rw [opX_eq]; omega
  have hx2 : (0xF065 + k * 256 &&& 0x0F00) >>> 8 = k := by
    rw [opX_eq]; omega
  obtain ⟨m', hstore, hmlen, hvals, _⟩ :=
    storeRegs_spec (List.range (k + 1)) c.mem c.regs c.i (List.nodup_range (k + 1))
      (by intro j hj; rw [hmemlen]; rw [List.mem_range] at hj; omega)
  have hload : loadRegs c.regs m' c.i (List.range (k + 1)) = some c.regs := by
    apply loadRegs_id
    · intro j hj
      rw [hmlen, hmemlen]
      rw [List.mem_range] at hj
      omega
    · intro j hj
      rw [hreglen]
      rw [List.mem_range] at hj
      omega
    · exact hvals
  refine ⟨{ c with mem := m', pc := c.pc + 2 }, { c with mem := m', pc := c.pc + 4 }, ?_, ?_, rfl⟩
  · simp only [Chip8.run_opcode, hsel1, hkk1, hx1, hstore]
  · simp only [Chip8.run_opcode, hsel2, hkk2, hx2]
    simp only [hload]

/-- C7 witness: `k = 3`, `I = 0x300` on a machine with distinct
register values. -/
theorem C7_store_load_roundtrip_witness :
    ∃ c1 c2, chipStore.run_opcode (0xF055 + 3 * 256) 0 noKey 0 = some (.ok c1) ∧
      c1.run_opcode (0xF065 + 3 * 256) 0 noKey 0 = some (.ok c2) ∧
      c2.regs = chipStore.regs :=
  C7_store_load_roundtrip chipStore 3 0 0 0 noKey (by norm_num)
    (by rw [show chipStore.mem = List.replicate 4096 0 from rfl, List.length_replicate])
    (by rw [show chipStore.regs = (List.range 16).map (fun j => j + 10) from rfl]; simp)
    (by rw [show chipStore.i = 0x300 from rfl]; norm_num)

/-- C8: `scroll_down(n)` for `n ≤ 2` on a 64-row buffer leaves rows 0
and 1 all-zero, keeps exactly 64 rows, and every other row `ii` holds
the cyclically-down-rotated content, i.e. the old row
`(ii + (64 - n)) % 64`. -/
theorem C8_scroll_down_boundary (disp : Display) (n ii : Nat) (hn : n ≤ 2)
    (hlen : disp.d.length = 64) (h2 : 2 ≤ ii) (h64 : ii < 64) :
    (disp.scroll_down n).d.getD 0 0 = 0 ∧
    (disp.scroll_down n).d.getD 1 0 = 0 ∧
    (disp.scroll_down n).d.length = 64 ∧
    (disp.scroll_down n).d.getD ii 0 = disp.d.getD ((ii + (64 - n)) % 64) 0 := by
  have hrotlen : (rotateRightSlice disp.d n).length = 64 := by
    rw [rotateRightSlice, List.length_rotate, hlen]
  have hlen1 : ((rotateRightSlice disp.d n).set 0 0).length = 64 := by
    rw [List.length_set, hrotlen]
  refine ⟨?_, ?_, ?_, ?_⟩
  · rw [Display.scroll_down]
    rw [getD_set_ne _ _ _ _ (by omega)]
    exact getD_set_self _ _ _ (by omega)
  · rw [Display.scroll_down]
    exact getD_set_self _ _ _ (by omega)
  · rw [Display.scroll_down]
    simp [List.length_set, hrotlen]
  · rw [Display.scroll_down]
    rw [getD_set_ne _ _ _ _ (by omega), getD_set_ne _ _ _ _ (by omega)]
    have hii : ii < (rotateRightSlice disp.d n).length := by omega
    rw [List.getD_eq_getElem?_getD, List.getElem?_eq_getElem hii]
    simp only [rotateRightSlice, List.getElem_rotate]
    have hmodlt : (ii + (disp.d.length - n)) % disp.d.length < 64 := by
      rw [hlen]; omega
    rw [List.getD_eq_getElem?_getD, List.getElem?_eq_getElem (by rw [hlen] at hmodlt ⊢; omega)]
    simp [hlen]

/-- C8 witness: scrolling a display with 64 distinct rows down by 2. -/
theorem C8_scroll_down_boundary_witness :
    (dispRows.scroll_down 2).d.getD 0 0 = 0 ∧
    (dispRows.scroll_down 2).d.getD 1 0 = 0 ∧
    (dispRows.scroll_down 2).d.length = 64 ∧
    (dispRows.scroll_down 2).d.getD 5 0 = dispRows.d.getD ((5 + (64 - 2)) % 64) 0 :=
  C8_scroll_down_boundary dispRows 2 5 (by norm_num) (by simp [dispRows]) (by norm_num)
    (by norm_num)

set_option maxHeartbeats 2000000 in
/-- C9: the top-level dispatch is exhaustive.  For every 16-bit opcode
the 4-bit family selector is one of the sixteen values `0x0`–`0xF`, and
`run_opcode` never reaches the `unreachable_unchecked` fall-through arm
(modelled by `StepResult.unreached`). -/
theorem C9_dispatch_exhaustive (opcode : Nat) (c : Chip8) (r kw : Nat) (ks : Nat → Bool)
    (hop : opcode < 65536) :
    familySelector opcode < 16 ∧ c.run_opcode opcode r ks kw ≠ some .unreached := by
  have hlt : familySelector opcode < 16 := by
    rw [familySelector_eq]
    exact Nat.mod_lt _ (by norm_num)
  refine ⟨hlt, ?_⟩
  have hlt2 := hlt
  simp only [Chip8.run_opcode]
  generalize hgen : familySelector opcode = s
  rw [hgen] at hlt2
  interval_cases s <;> (repeat' split) <;> simp

/-- C9 witness: concrete opcode `0x1234` on a fresh machine. -/
theorem C9_dispatch_exhaustive_witness :
    familySelector 0x1234 < 16 ∧ chipFresh.run_opcode 0x1234 0 noKey 0 ≠ some .unreached :=
  C9_dispatch_exhaustive 0x1234 chipFresh 0 0 noKey (by norm_num)

/-- C10: stack capacity.  `stack_push` increments the pointer before
writing, so a successful push writes slot `sp + 1` and never slot 0;
from a fresh machine 15 consecutive pushes succeed, ending with
`sp = 15`, and a 16th push indexes slot 16 of the 16-slot array and
faults; `stack_pop` with `sp = 0` underflows the pointer and faults. -/
theorem C10_stack_capacity :
    (∀ (c : Chip8) (v : Nat) (c' : Chip8), c.stack_push v = some c' →
        c'.sp = c.sp + 1 ∧ c'.stack.getD (c.sp + 1) 0 = v ∧
        c'.stack.getD 0 0 = c.stack.getD 0 0) ∧
    (∀ (c : Chip8) (vs : List Nat), c.sp = 0 → c.stack.length = 16 → vs.length = 15 →
        ∃ c', pushList c vs = some c' ∧ c'.sp = 15 ∧ ∀ v, c'.stack_push v = none) ∧
    (∀ c : Chip8, c.sp = 0 → c.stack_pop = none) := by
  refine ⟨?_, ?_, ?_⟩
  · intro c v c' h
    rw [Chip8.stack_push] at h
    split at h
    case isTrue hguard =>
      cases h
      refine ⟨rfl, ?_, ?_⟩
      · exact getD_set_self _ _ _ hguard
      · exact getD_set_ne _ _ _ _ (by omega)
    case isFalse => exact absurd h (by simp)
  · intro c vs hsp hlen hvs
    obtain ⟨c', h1, h2, h3⟩ := pushList_spec vs c hlen (by omega)
    refine ⟨c', h1, by omega, ?_⟩
    intro v
    rw [Chip8.stack_push, if_neg]
    rw [h3]
    omega
  · intro c hsp
    rw [Chip8.stack_pop, if_pos hsp]

/-- C10 witness: on the fresh machine, the first push writes slot 1 and
leaves slot 0 alone; 15 pushes reach `sp = 15` after which any push
faults; popping the empty stack faults. -/
theorem C10_stack_capacity_witness :
    (chipFresh1.sp = 0 + 1 ∧ chipFresh1.stack.getD (0 + 1) 0 = 7 ∧
      chipFresh1.stack.getD 0 0 = chipFresh.stack.getD 0 0) ∧
    (∃ c', pushList chipFresh (List.replicate 15 7) = some c' ∧ c'.sp = 15 ∧
      ∀ v, c'.stack_push v = none) ∧
    chipFresh.stack_pop = none := by
  refine ⟨?_, ?_, ?_⟩
  · have h := C10_stack_capacity.1 chipFresh 7 chipFresh1 (by decide)
    simpa using h
  · exact C10_stack_capacity.2.1 chipFresh (List.replicate 15 7) rfl (by decide) (by decide)
  · exact C10_stack_capacity.2.2 chipFresh rfl
